import Mathlib

/-!
Shallow embedding of `skin.go` (package `face`): the skin-mask engine
(`SkinMask`, `skinMaskColor`, `skinMaskColorRGBA`) and the posterization
content engine (`Content`, `contentRGBA`).

Modelling conventions, each justified against the Go source:

* Go `image.Rectangle` is `Rect` (min/max points, half-open membership as in
  `image.Point.In`).  Rectangle equality `==` compares all four coordinates.
* A packed `*image.RGBA` covering its full pixel buffer (`Rect.Min = (0,0)`,
  `Stride = 4*width`, as produced by `image.NewRGBA`) is `RGBAImage`; its
  `Pix []byte` slice is modelled as a function from index to byte value.
  `At` outside the bounds returns the zero color, as in the Go standard
  library; inside, `color.RGBA.RGBA()` scales each 8-bit channel by
  `0x101 = 257` to the 16-bit range.
* An `*image.Alpha` mask is `AlphaImage` with a linear `Pix` layout of
  stride `Dx` (as produced by `image.NewAlpha`); `Set` converts
  `color.Opaque` to alpha `255` and is a no-op outside the bounds, as in the
  standard library.
* Go `byte` subtraction wraps modulo 2^8 (`sub8`) and `uint32` subtraction
  wraps modulo 2^32 (`sub32`).  Histogram cells are `byte`, so increments
  wrap modulo 2^8 (`bumpL`).
* The float32 ratio test `float32(r)/float32(g) >= 2.5` is embedded as the
  exact integer test `5*g <= 2*r`.  This is exact: every channel value is at
  most 65535 < 2^24, so the operand conversions are exact; `2.5` is a binary
  float; IEEE division rounds the real quotient `r/g` to nearest, and the
  largest rational `r/g < 5/2` with `g <= 65535` is `2.5 - 1/(2*65535)`,
  which is farther below `2.5` than half an ulp, so rounding never crosses
  the threshold.  For `g = 0` the Go code computes `+Inf >= 2.5 = true`
  whenever `r > 0`, and the branch is only reached when `r >= minR > 0`;
  the embedded test `5*0 <= 2*r` is likewise true there.
* The coverage ratio `float64(n) / float64(r.Dy()*r.Dx())` is modelled in
  `ℚ`.  Both operands are small integers, hence exactly representable, and
  all facts proved below (equality of two ratios with one denominator,
  membership in `[0,1]`, equality with `1/4` or `4`) transfer verbatim to
  the float64 value because rounding to nearest is monotone and the
  endpoints are exactly representable.
* The generic-path threshold constants are written `75 << 8 || 75` (etc.) in
  the source; `||` on untyped integer constants is read as the bitwise or
  `|`, the only well-formed numeric reading, giving `75*257`, `20*257`,
  `90*257` — the 16-bit scaling of the fast-path 8-bit constants.
-/

namespace Face

/-- Go `image.Rectangle`: min and max corner coordinates. -/
structure Rect where
  minX : Int
  minY : Int
  maxX : Int
  maxY : Int
deriving DecidableEq, Repr

/-- Go `Rectangle.Dx`. -/
def Rect.dx (r : Rect) : Int := r.maxX - r.minX

/-- Go `Rectangle.Dy`. -/
def Rect.dy (r : Rect) : Int := r.maxY - r.minY

/-- Go `image.Point.In`: half-open membership of a coordinate in a rectangle. -/
def Rect.mem (r : Rect) (x y : Int) : Bool :=
  r.minX ≤ x && x < r.maxX && r.minY ≤ y && y < r.maxY

/-- The integers `a, a+1, ..., b` (empty when `b < a`): the index sequence of a
Go loop `for i := a; i <= b; i++`. -/
def intRangeIncl (a b : Int) : List Int :=
  (List.range (b - a + 1).toNat).map (fun i => a + (i : Int))

/-- The coordinates visited by the generic walkers of `skinMaskColor` and
`Content`: `y` from `Min.Y` to `Max.Y` inclusive (outer loop), `x` from
`Min.X` to `Max.X` inclusive (inner loop).  Note the loops use `<=`, so one
row and one column beyond the half-open rectangle are visited. -/
def coordsIncl (r : Rect) : List (Int × Int) :=
  ((intRangeIncl r.minY r.maxY).map
    (fun y => (intRangeIncl r.minX r.maxX).map (fun x => (x, y)))).flatten

/-- A packed `*image.RGBA` covering its full buffer: `Rect.Min = (0,0)`,
`Stride = 4*width`, `Pix` modelled as a function from byte index to byte
value (row-major, four bytes R,G,B,A per pixel). -/
structure RGBAImage where
  width : Nat
  height : Nat
  pix : Nat → Nat

/-- Bounds of a full-buffer `*image.RGBA`. -/
def RGBAImage.bounds (img : RGBAImage) : Rect :=
  ⟨0, 0, (img.width : Int), (img.height : Int)⟩

/-- An arbitrary `image.Image`: queryable bounds and an `At(x,y).RGBA()`
accessor returning 16-bit-scaled R,G,B,A channel values. -/
structure GImage where
  rect : Rect
  at16 : Int → Int → Nat × Nat × Nat × Nat

/-- A source image for the engines: either a packed `*image.RGBA` or a
generic `image.Image`. -/
inductive SrcImage where
  | rgba (img : RGBAImage)
  | gen (img : GImage)

/-- Go `src.Bounds()`. -/
def SrcImage.bounds : SrcImage → Rect
  | .rgba img => img.bounds
  | .gen img => img.rect

/-- Go `src.At(x, y).RGBA()`.  For `*image.RGBA`, `At` returns the zero color
outside the bounds and otherwise scales each stored byte by `0x101 = 257`
(`color.RGBA.RGBA()`); bytes are reduced mod 256 as carried by the `[]byte`
slice type. -/
def SrcImage.at16 : SrcImage → Int → Int → Nat × Nat × Nat × Nat
  | .rgba img, x, y =>
    if img.bounds.mem x y then
      let i := 4 * ((y - 0).toNat * img.width + (x - 0).toNat)
      (257 * (img.pix i % 256), 257 * (img.pix (i + 1) % 256),
       257 * (img.pix (i + 2) % 256), 257 * (img.pix (i + 3) % 256))
    else (0, 0, 0, 0)
  | .gen img, x, y => img.at16 x y

/-- An `*image.Alpha` mask with the standard-library layout: one byte per
cell, stride `Dx`, `Pix` modelled as a function from linear index to byte. -/
structure AlphaImage where
  rect : Rect
  pix : Nat → Nat

/-- Go `image.NewAlpha(r)`: a zero-filled alpha grid over `r`. -/
def newAlpha (r : Rect) : AlphaImage :=
  ⟨r, fun _ => 0⟩

/-- Go `(*image.Alpha).Set(x, y, c)` with `c = color.Opaque` (alpha 255):
writes the cell's byte if `(x,y)` is inside the bounds, otherwise does
nothing, exactly as in the standard library. -/
def AlphaImage.set (m : AlphaImage) (x y : Int) (v : Nat) : AlphaImage :=
  if m.rect.mem x y then
    let i := ((y - m.rect.minY) * m.rect.dx + (x - m.rect.minX)).toNat
    ⟨m.rect, fun j => if j = i then v else m.pix j⟩
  else m

/-- Go `byte` subtraction `r - g`: wraps modulo 2^8 (operands below 256). -/
def sub8 (r g : Nat) : Nat := (r + 256 - g) % 256

/-- Go `uint32` subtraction `r - g`: wraps modulo 2^32 (operands below 2^32). -/
def sub32 (r g : Nat) : Nat := (r + 2 ^ 32 - g) % 2 ^ 32

/-- The fast-path skin predicate of `skinMaskColorRGBA`, on 8-bit channel
bytes: constants `minR = 75`, `minRGdelta = 20`, `maxRGdelta = 90`,
`maxRGrat = 2.5`; early `continue`s become nested `if`s, the wrapping byte
subtraction is `sub8`, and the exact integer form of the float32 ratio test
is `5*g <= 2*r` (see the file header). -/
def skinPix8 (r g : Nat) : Bool :=
  if r < 75 then false
  else if sub8 r g < 20 ∨ 90 < sub8 r g then false
  else if 5 * g ≤ 2 * r then false
  else true

/-- The generic-path skin predicate of `skinMaskColor`, on the 16-bit-scaled
`uint32` channels returned by `RGBA()`: constants `75<<8|75 = 19275`,
`20<<8|20 = 5140`, `90<<8|90 = 23130`, ratio threshold `2.5`; the wrapping
`uint32` subtraction is `sub32`. -/
def skinPix16 (r g : Nat) : Bool :=
  if r < 19275 then false
  else if sub32 r g < 5140 ∨ 23130 < sub32 r g then false
  else if 5 * g ≤ 2 * r then false
  else true

/-- The buffer walk of `skinMaskColorRGBA`: `sp` runs from the origin offset
(`0` for a full-buffer image) to `ep = Dx*Dy*4` in steps of 4 with the mask
index `mp` in lockstep — here pixel index `i` with `sp = 4*i` and `mp = i`.
Classified cells are written with byte 255 (`mask.Pix[mp] = 255`, an
unchecked slice write at an in-range index) and `n` counts classifications. -/
def skinWalkRGBA (src : RGBAImage) (mask : AlphaImage) : AlphaImage × Nat :=
  (List.range (src.width * src.height)).foldl
    (fun (st : AlphaImage × Nat) i =>
      let g := src.pix (4 * i + 1) % 256
      let r := src.pix (4 * i) % 256
      if skinPix8 r g then
        (⟨st.1.rect, fun j => if j = i then 255 else st.1.pix j⟩, st.2 + 1)
      else st)
    (mask, 0)

/-- Go `skinMaskColorRGBA`: the specialized path.  Panics (`none`) when the
mask bounds differ from the source bounds; otherwise runs the buffer walk
and returns the mask with `cover = n / (Dy*Dx)`. -/
def skinMaskColorRGBA (src : RGBAImage) (mask : AlphaImage) :
    Option (AlphaImage × ℚ) :=
  if src.bounds = mask.rect then
    let res := skinWalkRGBA src mask
    some (res.1, (res.2 : ℚ) / ((mask.rect.dy * mask.rect.dx : Int) : ℚ))
  else none

/-- The generic per-pixel loop of `skinMaskColor` (the code after the
fast-path dispatch): iterates the mask's bounds inclusively on both axes,
classifies each source pixel with the 16-bit predicate, sets classified mask
cells to opaque via the bounds-checked `Set`, and counts classifications. -/
def skinWalkGeneric (src : SrcImage) (mask : AlphaImage) : AlphaImage × Nat :=
  (coordsIncl mask.rect).foldl
    (fun (st : AlphaImage × Nat) p =>
      let q := src.at16 p.1 p.2
      if skinPix16 q.1 q.2.1 then (st.1.set p.1 p.2 255, st.2 + 1) else st)
    (mask, 0)

/-- The generic per-pixel path of `skinMaskColor` assembled: the walk over
the mask's bounds followed by `cover = m / (Dy*Dx)`. -/
def skinMaskGeneric (src : SrcImage) (mask : AlphaImage) : AlphaImage × ℚ :=
  let res := skinWalkGeneric src mask
  (res.1, (res.2 : ℚ) / ((mask.rect.dy * mask.rect.dx : Int) : ℚ))

/-- Go `skinMaskColor`: allocates a fresh alpha mask when none is supplied
(`amask` is then true; a supplied mask is an `*image.Alpha` in this model,
so `amask` is always true), dispatches to the specialized walker when the
source is a packed RGBA buffer and the bounds coincide, and otherwise runs
the generic walker. -/
def skinMaskColor (src : SrcImage) (maskOpt : Option AlphaImage) :
    Option (AlphaImage × ℚ) :=
  let mask := match maskOpt with
    | none => newAlpha src.bounds
    | some m => m
  if src.bounds = mask.rect then
    match src with
    | .rgba img => skinMaskColorRGBA img mask
    | .gen _ => some (skinMaskGeneric src mask)
  else some (skinMaskGeneric src mask)

/-- Go `SkinMask`: the public entry point, delegating to `skinMaskColor`. -/
def SkinMask (src : SrcImage) (maskOpt : Option AlphaImage) :
    Option (AlphaImage × ℚ) :=
  skinMaskColor src maskOpt

/-- The histogram bucket index of the fast content path: the three channel
bytes are summed in 8-bit arithmetic (each addition wraps modulo 256) before
the division by 3, exactly as `(pix[sp]+pix[sp+1]+pix[sp+2])/3` on `byte`s. -/
def bucket8 (r g b : Nat) : Nat :=
  ((r + g) % 256 + b) % 256 / 3

/-- Go `C[b]++` on a `byte` array: increments the cell modulo 2^8. -/
def bumpL (C : List Nat) (b : Nat) : List Nat :=
  C.set b ((C.getD b 0 + 1) % 256)

/-- The 256-cell byte histogram accumulated by `contentRGBA` over the packed
buffer. -/
def histRGBA (img : RGBAImage) : List Nat :=
  (List.range (img.width * img.height)).foldl
    (fun C i =>
      bumpL C (bucket8 (img.pix (4 * i) % 256) (img.pix (4 * i + 1) % 256)
        (img.pix (4 * i + 2) % 256)))
    (List.replicate 256 0)

/-- Go `contentRGBA`: counts histogram cells strictly above `threshold = 64`
and clamps the count to 255. -/
def contentRGBA (img : RGBAImage) : Nat :=
  let c := (histRGBA img).countP (fun v => decide (64 < v))
  if 255 < c then 255 else c

/-- The `256*3`-cell byte histogram accumulated by the generic path of
`Content` over the inclusively-walked region: each channel is shifted down
to 8 bits, averaged in full-width arithmetic, and the index is truncated to
a byte (`C[byte(Y)]++`). -/
def histGeneric (src : SrcImage) (r : Rect) : List Nat :=
  (coordsIncl r).foldl
    (fun C p =>
      let q := src.at16 p.1 p.2
      bumpL C (((q.1 / 256 + q.2.1 / 256 + q.2.2.1 / 256) / 3) % 256))
    (List.replicate (256 * 3) 0)

/-- The generic path of `Content` (the code after the fast-path dispatch):
counts histogram cells strictly above `threshold = 64` and clamps to 255. -/
def contentGeneric (src : SrcImage) (r : Rect) : Nat :=
  let c := (histGeneric src r).countP (fun v => decide (64 < v))
  if 255 < c then 255 else c

/-- Go `Content`: dispatches to `contentRGBA` when the source is a packed
RGBA buffer whose full bounds equal the region, else runs the generic
walker. -/
def Content (src : SrcImage) (r : Rect) : Nat :=
  if src.bounds = r then
    match src with
    | .rgba img => contentRGBA img
    | .gen _ => contentGeneric src r
  else contentGeneric src r

/-- A single-color packed RGBA image: every pixel holds the bytes
`(r, g, b, a)`. -/
def uniformRGBA (W H r g b a : Nat) : RGBAImage :=
  ⟨W, H, fun i =>
    if i % 4 = 0 then r else if i % 4 = 1 then g else if i % 4 = 2 then b
    else a⟩

/-- The mask byte of an engine result at linear index `i` (`none` when the
engine panicked).  The alpha layout puts region-relative `(x,y)` at index
`y*Dx + x`. -/
def maskPixOf (o : Option (AlphaImage × ℚ)) (i : Nat) : Option Nat :=
  o.map fun p => p.1.pix i

/-- The coverage ratio of an engine result (`none` when the engine
panicked). -/
def coverOf (o : Option (AlphaImage × ℚ)) : Option ℚ :=
  o.map fun p => p.2

/-- The 2x2 scenario image of the specification: pixels `(200,100,50)`,
`(150,110,60)`, `(80,10,10)`, `(30,20,10)`, all fully opaque. -/
def c5img : RGBAImage :=
  ⟨2, 2, fun i =>
    ([200, 100, 50, 255, 150, 110, 60, 255,
      80, 10, 10, 255, 30, 20, 10, 255].getD i 0)⟩

/-- A 1x1 packed RGBA image whose pixel is `(R,G,B,A) = (75,255,0,255)`: the
8-bit wrapping byte difference `R - G = 76` lands inside the `[20,90]`
acceptance band although the mathematical difference is `-180`. -/
def c1img : RGBAImage :=
  ⟨1, 1, fun i => ([75, 255, 0, 255].getD i 0)⟩

/-- A 65x1 packed RGBA image with every pixel pure white. -/
def white65 : RGBAImage := uniformRGBA 65 1 255 255 255 255

/-- A 2x2 packed RGBA image with every pixel the skin tone `(150,110,60)`. -/
def skin2x2 : RGBAImage := uniformRGBA 2 2 150 110 60 255

/-- A caller-supplied 1x1 alpha mask over `[0,1) x [0,1)`, zero-filled. -/
def mask1x1 : AlphaImage := newAlpha ⟨0, 0, 1, 1⟩

/-- A 2x2 packed RGBA image that is zero except at pixel `(1,1)`, which holds
the skin tone `(150,110,60,255)`. -/
def c9src : RGBAImage :=
  ⟨2, 2, fun i =>
    ([0, 0, 0, 0, 0, 0, 0, 0, 0, 0, 0, 0, 150, 110, 60, 255].getD i 0)⟩

/-- A 2x2 packed RGBA image that is zero everywhere. -/
def c9zero : RGBAImage := ⟨2, 2, fun _ => 0⟩

/-- A single-color generic (non-packed) source: 65x1, every pixel pure white,
zero outside the bounds as for the standard library image types. -/
def genWhite65 : GImage :=
  ⟨⟨0, 0, 65, 1⟩, fun x y =>
    if Rect.mem ⟨0, 0, 65, 1⟩ x y then (65535, 65535, 65535, 65535)
    else (0, 0, 0, 0)⟩

/-- Setting a cell of the zero histogram to zero changes nothing. -/
lemma replicate_set_zero (m B : Nat) :
    (List.replicate m (0 : Nat)).set B 0 = List.replicate m 0 := by
  induction m generalizing B with
  | zero => rfl
  | succ m ih =>
    cases B with
    | zero => simp [List.replicate_succ]
    | succ B => simp [List.replicate_succ, ih]

/-- Reading back a just-written histogram cell. -/
lemma getD_set_self (C : List Nat) (B v : Nat) (h : B < C.length) :
    (C.set B v).getD B 0 = v := by
  induction C generalizing B with
  | nil => simp at h
  | cons a t ih =>
    cases B with
    | zero => rfl
    | succ B =>
      simp only [List.set_cons_succ, List.getD_cons_succ]
      exact ih B (by simpa using h)

/-- Counting cells above a threshold in a zero histogram with one written
cell. -/
lemma countP_replicate_set (m B c t : Nat) (hB : B < m) :
    ((List.replicate m (0 : Nat)).set B c).countP (fun v => decide (t < v))
      = if t < c then 1 else 0 := by
  induction m generalizing B with
  | zero => exact absurd hB (Nat.not_lt_zero B)
  | succ m ih =>
    rw [List.replicate_succ]
    cases B with
    | zero =>
      simp only [List.set_cons_zero, List.countP_cons]
      have hz : (List.replicate m (0 : Nat)).countP (fun v => decide (t < v))
          = 0 := by
        refine List.countP_eq_zero.mpr fun a ha => ?_
        have := List.eq_of_mem_replicate ha
        simp [this]
      rw [hz]
      by_cases h : t < c <;> simp [h]
    | succ B =>
      simp only [List.set_cons_succ, List.countP_cons]
      rw [ih B (Nat.lt_of_succ_lt_succ hB)]
      simp

/-- Folding `n` bumps of one and the same bucket over the zero histogram
yields that bucket holding `n mod 256` (the byte counter wraps). -/
lemma fold_bumpL_const (f : Nat → Nat) (n B : Nat) (hB : B < 256)
    (hf : ∀ i, i < n → f i = B) :
    (List.range n).foldl (fun C i => bumpL C (f i)) (List.replicate 256 0)
      = (List.replicate 256 0).set B (n % 256) := by
  induction n with
  | zero =>
    simp only [List.range_zero, List.foldl_nil, Nat.zero_mod,
      replicate_set_zero]
  | succ n ih =>
    rw [List.range_succ, List.foldl_append, ih (fun i h => hf i (by omega))]
    simp only [List.foldl_cons, List.foldl_nil]
    rw [hf n (by omega)]
    unfold bumpL
    rw [getD_set_self _ _ _
      (by simp only [List.length_replicate]; exact hB), List.set_set]
    congr 1
    omega

/-- The channel bytes of a single-color image at pixel index `i`. -/
lemma uniformRGBA_pix (W H r g b a i : Nat) :
    (uniformRGBA W H r g b a).pix (4 * i) = r ∧
    (uniformRGBA W H r g b a).pix (4 * i + 1) = g ∧
    (uniformRGBA W H r g b a).pix (4 * i + 2) = b := by
  refine ⟨?_, ?_, ?_⟩
  · show (if (4 * i) % 4 = 0 then r else _) = r
    rw [if_pos (by omega)]
  · show (if (4 * i + 1) % 4 = 0 then r else
      if (4 * i + 1) % 4 = 1 then g else _) = g
    rw [if_neg (by omega), if_pos (by omega)]
  · show (if (4 * i + 2) % 4 = 0 then r else
      if (4 * i + 2) % 4 = 1 then g else if (4 * i + 2) % 4 = 2 then b
      else a) = b
    rw [if_neg (by omega), if_neg (by omega), if_pos (by omega)]

/-- The fast-path histogram of a single-color image: one touched bucket
holding the pixel count modulo 256. -/
lemma histRGBA_uniform (W H r g b a : Nat) :
    histRGBA (uniformRGBA W H r g b a)
      = (List.replicate 256 0).set
          (bucket8 (r % 256) (g % 256) (b % 256)) ((W * H) % 256) := by
  unfold histRGBA
  refine fold_bumpL_const _ _ _ ?_ ?_
  · simp only [bucket8]
    omega
  · intro i hi
    obtain ⟨h0, h1, h2⟩ := uniformRGBA_pix W H r g b a i
    rw [h0, h1, h2]

/-- The fast-path bucket index is always a legal histogram index. -/
lemma bucket8_lt (x y z : Nat) : bucket8 x y z < 256 := by
  unfold bucket8
  omega

/-- C10: in the specialized content path the histogram bucket index used by
`contentRGBA` equals `((R8 + G8 + B8) mod 256) / 3`: the three channel bytes
are summed in 8-bit wrapping arithmetic before the division by 3; in
particular every pure-white pixel `(255,255,255)` increments bucket 84
rather than bucket 255. -/
theorem bucket_index_wraps_mod256 :
    (∀ r g b : Nat, bucket8 r g b = (r + g + b) % 256 / 3) ∧
    bucket8 255 255 255 = 84 := by
  constructor
  · intro r g b
    unfold bucket8
    rw [Nat.mod_add_mod]
  · rfl

/-- C8: a pixel whose green channel is 0 is classified non-skin by both mask
paths, and classification completes without a division fault: the Go float32
division is total (`+Inf >= 2.5` when the ratio test is reached, since the
red channel already passed `r >= minR > 0`), as is its exact embedded form
`5*g <= 2*r`. -/
theorem green_zero_not_skin (r : Nat) :
    skinPix8 r 0 = false ∧ skinPix16 r 0 = false := by
  constructor <;>
    · simp only [skinPix8, skinPix16, sub8, sub32]
      repeat' split
      all_goals first | rfl | omega

/-- C4 counterexample: the fast path classifies the pixel `(R,G) = (75,255)`
as skin although its mathematical channel difference `R - G = -180` lies far
outside the claimed band `[20, 90]` (the byte subtraction wraps to 76). -/
theorem skin_predicate_wrap_counterexample :
    skinPix8 75 255 = true ∧
    ¬(20 ≤ (75 : ℤ) - 255 ∧ (75 : ℤ) - 255 ≤ 90) := by
  constructor
  · rfl
  · decide

/-- The wrapping `uint32` difference of two 16-bit-scaled bytes: the
mathematical difference when `g <= r`, and a value within `65535` of `2^32`
otherwise. -/
lemma sub32_scaled (r g : Nat) (hr : r < 256) (hg : g < 256) :
    sub32 (257 * r) (257 * g)
      = if g ≤ r then 257 * (r - g) else 2 ^ 32 - 257 * (g - r) := by
  unfold sub32
  by_cases h : g ≤ r
  · rw [if_pos h]
    have he : 257 * r + 2 ^ 32 - 257 * g = 2 ^ 32 + 257 * (r - g) := by omega
    rw [he, Nat.add_mod_left, Nat.mod_eq_of_lt (by omega)]
  · rw [if_neg h]
    have he : 257 * r + 2 ^ 32 - 257 * g = 2 ^ 32 - 257 * (g - r) := by omega
    rw [he, Nat.mod_eq_of_lt (by omega)]

/-- C4 amended: characterization of both skin predicates on 8-bit channel
values `r, g < 256`.  The generic path (16-bit-scaled inputs and thresholds)
accepts exactly when `R >= 75`, the mathematical difference `R - G` lies in
`[20, 90]`, and `2R < 5G`; the fast path computes `R - G` in 8-bit wrapping
arithmetic, so its delta condition constrains `(R - G) mod 256` instead.
Blue and alpha are not consulted by either predicate (they take only the red
and green channels). -/
theorem skin_predicate_characterization (r g : Nat) (hr : r < 256)
    (hg : g < 256) :
    (skinPix16 (257 * r) (257 * g) = true ↔
      (75 ≤ r ∧ 20 ≤ (r : ℤ) - g ∧ (r : ℤ) - g ≤ 90 ∧ 2 * r < 5 * g)) ∧
    (skinPix8 r g = true ↔
      (75 ≤ r ∧ 20 ≤ ((r : ℤ) - g) % 256 ∧ ((r : ℤ) - g) % 256 ≤ 90 ∧
        2 * r < 5 * g)) := by
  constructor
  · have hs := sub32_scaled r g hr hg
    simp only [skinPix16, hs]
    by_cases h : g ≤ r
    · simp only [if_pos h]
      repeat' split
      all_goals simp_all
      all_goals omega
    · simp only [if_neg h]
      repeat' split
      all_goals simp_all
      all_goals omega
  · simp only [skinPix8, sub8]
    repeat' split
    all_goals simp_all
    all_goals omega

/-- Witness for the skin-predicate characterization at the concrete skin
pixel `(R,G) = (150,110)`. -/
theorem skin_predicate_characterization_witness :
    ((150 : Nat) < 256 ∧ (110 : Nat) < 256) ∧
    ((skinPix16 (257 * 150) (257 * 110) = true ↔
      (75 ≤ (150 : Nat) ∧ 20 ≤ ((150 : Nat) : ℤ) - (110 : Nat) ∧
        ((150 : Nat) : ℤ) - (110 : Nat) ≤ 90 ∧
        2 * (150 : Nat) < 5 * (110 : Nat))) ∧
     (skinPix8 150 110 = true ↔
      (75 ≤ (150 : Nat) ∧ 20 ≤ (((150 : Nat) : ℤ) - (110 : Nat)) % 256 ∧
        (((150 : Nat) : ℤ) - (110 : Nat)) % 256 ≤ 90 ∧
        2 * (150 : Nat) < 5 * (110 : Nat)))) :=
  ⟨by decide, skin_predicate_characterization 150 110 (by decide) (by decide)⟩

/-- C5: the 2x2 scenario through the public entry point with a fresh mask
(the specialized path): exactly the `(150,110,60)` pixel is classified (mask
bytes `0,255,0,0`) and the coverage is `1/4`. -/
theorem concrete_2x2_scenario :
    maskPixOf (SkinMask (.rgba c5img) none) 0 = some 0 ∧
    maskPixOf (SkinMask (.rgba c5img) none) 1 = some 255 ∧
    maskPixOf (SkinMask (.rgba c5img) none) 2 = some 0 ∧
    maskPixOf (SkinMask (.rgba c5img) none) 3 = some 0 ∧
    coverOf (SkinMask (.rgba c5img) none) = some (1 / 4) := by
  refine ⟨by decide, by decide, by decide, by decide, ?_⟩
  have hc : (skinWalkRGBA c5img (newAlpha (RGBAImage.bounds c5img))).2
      = 1 := by decide
  show some (((skinWalkRGBA c5img (newAlpha (RGBAImage.bounds c5img))).2 : ℚ)
      / (((newAlpha (RGBAImage.bounds c5img)).rect.dy
        * (newAlpha (RGBAImage.bounds c5img)).rect.dx : ℤ) : ℚ))
    = some (1 / 4)
  rw [hc]
  norm_num [newAlpha, RGBAImage.bounds, Rect.dy, Rect.dx, c5img]

/-- C1 (failing input): on the 1x1 source with pixel `(75,255,0,255)` and a
fresh bounds-matching alpha mask, the specialized path marks the pixel (mask
byte 255, coverage 1) while the generic path leaves it clear (mask byte 0,
coverage 0): the two paths are not bit-identical, because the fast path's
8-bit byte difference `75 - 255` wraps to `76`, inside the acceptance band,
whereas the generic path's 32-bit difference wraps far above it. -/
theorem skin_mask_paths_diverge :
    maskPixOf (skinMaskColorRGBA c1img (newAlpha c1img.bounds)) 0
      = some 255 ∧
    coverOf (skinMaskColorRGBA c1img (newAlpha c1img.bounds)) = some 1 ∧
    (skinMaskGeneric (.rgba c1img) (newAlpha c1img.bounds)).1.pix 0 = 0 ∧
    (skinMaskGeneric (.rgba c1img) (newAlpha c1img.bounds)).2 = 0 := by
  refine ⟨by decide, ?_, by decide, ?_⟩
  · have hc : (skinWalkRGBA c1img (newAlpha c1img.bounds)).2 = 1 := by decide
    show some (((skinWalkRGBA c1img (newAlpha c1img.bounds)).2 : ℚ)
        / (((newAlpha c1img.bounds).rect.dy
          * (newAlpha c1img.bounds).rect.dx : ℤ) : ℚ)) = some 1
    rw [hc]
    norm_num [newAlpha, RGBAImage.bounds, Rect.dy, Rect.dx, c1img]
  · have hc : (skinWalkGeneric (.rgba c1img) (newAlpha c1img.bounds)).2
        = 0 := by decide
    show ((skinWalkGeneric (.rgba c1img) (newAlpha c1img.bounds)).2 : ℚ)
        / (((newAlpha c1img.bounds).rect.dy
          * (newAlpha c1img.bounds).rect.dx : ℤ) : ℚ) = 0
    rw [hc]
    norm_num

set_option maxRecDepth 100000 in
/-- C2 (failing input): on a 65x1 all-white packed source whose full bounds
equal the region (both content paths applicable, and the dispatcher takes
the specialized one), the specialized path scores 1 (all 65 pixels land in
byte-wrapped bucket 84) while the generic path scores 2 (65 pixels in bucket
255 plus 67 out-of-bounds zero reads from the inclusive walk in bucket 0). -/
theorem content_paths_diverge :
    contentRGBA white65 = 1 ∧
    contentGeneric (.rgba white65) (RGBAImage.bounds white65) = 2 ∧
    Content (.rgba white65) (RGBAImage.bounds white65) = 1 := by
  refine ⟨by decide, by decide, by decide⟩

/-- C3 (failing input): with a 2x2 all-skin packed source and a
caller-supplied 1x1 alpha mask (bounds differ, so the engine takes the
generic path), the inclusive walk classifies all four source pixels but
divides by the 1x1 region area: the returned coverage is 4, outside
`[0,1]`. -/
theorem coverage_exceeds_one :
    coverOf (SkinMask (.rgba skin2x2) (some mask1x1)) = some 4 ∧
    ¬((4 : ℚ) ≤ 1) := by
  refine ⟨?_, by norm_num⟩
  have hc : (skinWalkGeneric (.rgba skin2x2) mask1x1).2 = 4 := by decide
  show some (((skinWalkGeneric (.rgba skin2x2) mask1x1).2 : ℚ)
      / ((mask1x1.rect.dy * mask1x1.rect.dx : ℤ) : ℚ)) = some 4
  rw [hc]
  norm_num [mask1x1, newAlpha, Rect.dy, Rect.dx]

/-- C9 (failing input): two sources that agree on every pixel inside the 1x1
mask bounds (the only such coordinate is `(0,0)`) but differ at `(1,1)`
outside them produce different coverage ratios — the engine's generic walk
reads source pixels outside the mask's declared bounds and lets them affect
the result. -/
theorem out_of_bounds_pixel_read_observable :
    SrcImage.at16 (.rgba c9src) 0 0 = SrcImage.at16 (.rgba c9zero) 0 0 ∧
    coverOf (SkinMask (.rgba c9src) (some mask1x1)) = some 1 ∧
    coverOf (SkinMask (.rgba c9zero) (some mask1x1)) = some 0 := by
  refine ⟨by decide, ?_, ?_⟩
  · have hc : (skinWalkGeneric (.rgba c9src) mask1x1).2 = 1 := by decide
    show some (((skinWalkGeneric (.rgba c9src) mask1x1).2 : ℚ)
        / ((mask1x1.rect.dy * mask1x1.rect.dx : ℤ) : ℚ)) = some 1
    rw [hc]
    norm_num [mask1x1, newAlpha, Rect.dy, Rect.dx]
  · have hc : (skinWalkGeneric (.rgba c9zero) mask1x1).2 = 0 := by decide
    show some (((skinWalkGeneric (.rgba c9zero) mask1x1).2 : ℚ)
        / ((mask1x1.rect.dy * mask1x1.rect.dx : ℤ) : ℚ)) = some 0
    rw [hc]
    norm_num

set_option maxRecDepth 100000 in
/-- C6 counterexample: a single-color (all pure white) 65x1 non-packed
source takes the generic content path, which occupies two histogram buckets
(bucket 255 with the 65 region pixels and bucket 0 with the 67 out-of-bounds
zero reads of the inclusive walk), and the score is 2 — the claim predicts
exactly one occupied bucket and score 1. -/
theorem single_color_score_counterexample :
    Content (.gen genWhite65) ⟨0, 0, 65, 1⟩ = 2 ∧
    (histGeneric (.gen genWhite65) ⟨0, 0, 65, 1⟩).countP
      (fun v => decide (0 < v)) = 2 := by
  exact ⟨by decide, by decide⟩

/-- C6 amended: the content score is always at most 255 (hence in
`[0,255]`); and for a single-color packed RGBA image whose full bounds equal
the region (the specialized path) and which has fewer than 256 pixels, the
histogram has exactly one occupied bucket, and the score is 0 when the pixel
count is at most 64 and 1 otherwise.  (Both restrictions are forced: the
generic path additionally occupies bucket 0 through its out-of-bounds
inclusive walk, and the byte histogram counters wrap at 256.) -/
theorem single_color_fast_path_score :
    (∀ src r, Content src r ≤ 255) ∧
    ∀ W H r g b a : Nat, 0 < W * H → W * H < 256 →
      Content (.rgba (uniformRGBA W H r g b a))
          (RGBAImage.bounds (uniformRGBA W H r g b a))
        = contentRGBA (uniformRGBA W H r g b a) ∧
      (histRGBA (uniformRGBA W H r g b a)).countP (fun v => decide (0 < v))
        = 1 ∧
      contentRGBA (uniformRGBA W H r g b a)
        = if W * H ≤ 64 then 0 else 1 := by
  constructor
  · have hcl : ∀ c : Nat, (if 255 < c then 255 else c) ≤ 255 := by
      intro c
      split <;> omega
    intro src reg
    unfold Content contentRGBA contentGeneric
    repeat' split
    all_goals exact hcl _
  · intro W H r g b a h1 h2
    refine ⟨?_, ?_, ?_⟩
    · unfold Content
      simp only [SrcImage.bounds]
      rw [if_pos trivial]
    · rw [histRGBA_uniform,
        countP_replicate_set 256 _ _ 0 (bucket8_lt _ _ _),
        Nat.mod_eq_of_lt h2, if_pos h1]
    · unfold contentRGBA
      rw [histRGBA_uniform,
        countP_replicate_set 256 _ _ 64 (bucket8_lt _ _ _),
        Nat.mod_eq_of_lt h2]
      by_cases hc : 64 < W * H
      · rw [if_pos hc, if_neg (by omega), if_neg (by omega)]
      · rw [if_neg hc, if_neg (by omega), if_pos (by omega)]

/-- Witness for the single-color fast-path score at a 2x1 image (2 pixels,
below the 64 threshold, so score 0). -/
theorem single_color_fast_path_score_witness :
    (0 < 2 * 1 ∧ 2 * 1 < 256) ∧
    (Content (.rgba (uniformRGBA 2 1 10 20 30 255))
        (RGBAImage.bounds (uniformRGBA 2 1 10 20 30 255))
      = contentRGBA (uniformRGBA 2 1 10 20 30 255) ∧
     (histRGBA (uniformRGBA 2 1 10 20 30 255)).countP
        (fun v => decide (0 < v)) = 1 ∧
     contentRGBA (uniformRGBA 2 1 10 20 30 255)
      = if 2 * 1 ≤ 64 then 0 else 1) :=
  ⟨by decide,
    single_color_fast_path_score.2 2 1 10 20 30 255 (by decide) (by decide)⟩

/-- C7: the public entry point never reaches the specialized walker's
bounds-mismatch panic: for every source and optional alpha mask, `SkinMask`
returns a result.  The dispatcher enters the specialized walker only after
checking that the source bounds equal the mask bounds (a freshly allocated
mask inherits the source bounds), which is exactly the condition the walker
panics on. -/
theorem skinmask_never_panics (src : SrcImage) (maskOpt : Option AlphaImage) :
    (SkinMask src maskOpt).isSome = true := by
  have key : ∀ (img : RGBAImage) (m : AlphaImage), img.bounds = m.rect →
      (skinMaskColorRGBA img m).isSome = true := by
    intro img m h
    unfold skinMaskColorRGBA
    rw [if_pos h]
    rfl
  unfold SkinMask skinMaskColor
  cases maskOpt with
  | none =>
    simp only []
    split
    next h =>
      cases src with
      | rgba img => exact key img _ h
      | gen g => rfl
    next h => rfl
  | some m =>
    simp only []
    split
    next h =>
      cases src with
      | rgba img => exact key img _ h
      | gen g => rfl
    next h => rfl

end Face
